import Mathlib

/-!
Verification development for the result-generation and self-correction pipeline
of the `resumir` browser extension.

The TypeScript sources are shallowly embedded: pure functions become Lean
functions, asynchronous calls (LLM invocations, IndexedDB requests, timers)
become explicit outcome parameters of type `Except JsError _`, and JavaScript
strings/arrays become `String`/`List`.  Machine-level JavaScript semantics that
the code relies on (string truthiness, `||` defaulting, `Array.prototype.sort`
stability, `splice` out-of-range behaviour) are modelled explicitly below.
-/

/-! ### JavaScript string primitives -/

/-- Whitespace characters recognised by `String.prototype.trim`
(the ASCII ones plus NBSP; the source code only ever meets ASCII). -/
def isJsWhitespace (c : Char) : Bool :=
  c == ' ' || c == '\t' || c == '\n' || c == '\r' || c == '\x0b' || c == '\x0c' || c == ' '

/-- `trim` on a character list: drop leading and trailing whitespace. -/
def jsTrimList (cs : List Char) : List Char :=
  List.rdropWhile isJsWhitespace (List.dropWhile isJsWhitespace cs)

/-- Embedding of JavaScript `String.prototype.trim`. -/
def jsTrim (s : String) : String :=
  String.mk (jsTrimList s.data)

/-- Embedding of JavaScript `String.prototype.toLowerCase` (ASCII range). -/
def jsToLower (s : String) : String :=
  String.mk (s.data.map Char.toLower)

/-- Does `pat` occur at the very start of `cs`? -/
def startsWithChars : List Char → List Char → Bool
  | [], _ => true
  | _ :: _, [] => false
  | p :: ps, c :: cs => p == c && startsWithChars ps cs

/-- Case-insensitive variant of `startsWithChars` (pattern given in lower case). -/
def startsWithCharsCI : List Char → List Char → Bool
  | [], _ => true
  | _ :: _, [] => false
  | p :: ps, c :: cs => p == c.toLower && startsWithCharsCI ps cs

/-- Split `cs` at the first occurrence of `pat`: returns the part before the
occurrence and the part after it.  `none` when `pat` does not occur. -/
def splitAtSub (pat : List Char) : List Char → Option (List Char × List Char)
  | [] => if pat.isEmpty then some ([], []) else none
  | c :: cs =>
    if startsWithChars pat (c :: cs) then some ([], List.drop pat.length (c :: cs))
    else (splitAtSub pat cs).map (fun pr => (c :: pr.1, pr.2))

/-- Case-insensitive `splitAtSub` (pattern given in lower case). -/
def splitAtSubCI (pat : List Char) : List Char → Option (List Char × List Char)
  | [] => if pat.isEmpty then some ([], []) else none
  | c :: cs =>
    if startsWithCharsCI pat (c :: cs) then some ([], List.drop pat.length (c :: cs))
    else (splitAtSubCI pat cs).map (fun pr => (c :: pr.1, pr.2))

/-- Embedding of JavaScript `String.prototype.includes`. -/
def occursIn (pat : String) (s : String) : Bool :=
  (splitAtSub pat.data s.data).isSome

/-! ### Data model (`types.ts`) -/

/-- `Highlight` from `types.ts`. -/
structure Highlight where
  timestamp : String
  description : String
deriving DecidableEq

/-- `UserAnswerResult` from `types.ts`. -/
structure UserAnswerResult where
  text : String
  relatedSegments : List String
deriving DecidableEq

/-- `AnalysisResult` from `types.ts`; the optional `customAnswer` is an `Option`. -/
structure AnalysisResult where
  customAnswer : Option UserAnswerResult := none
  summary : String
  keyMoments : List Highlight
deriving DecidableEq

/-- `Omit AnalysisResult customAnswer`: what `analyzeVideo` returns. -/
structure AnalysisCore where
  summary : String
  keyMoments : List Highlight
deriving DecidableEq

/-- `LLMProvider` from `types.ts`. -/
inductive LLMProvider where
  | google | openai | anthropic | groq | deepseek
deriving DecidableEq

/-- `ApiCredentials` from `types.ts`. -/
structure ApiCredentials where
  provider : LLMProvider
  key : String
deriving DecidableEq

/-- A JavaScript error value, as far as the pipeline inspects one:
its `name`, its `message`, and whether it is an `instanceof TimeoutError`. -/
structure JsError where
  name : String
  message : String
  isTimeoutInstance : Bool
deriving DecidableEq

/-! ### Sanitizers (`llmService.ts`) -/

/-- `sanitizeKeyMoments`: trim both fields of every moment and drop the
moments where either trimmed field is empty. -/
def sanitizeKeyMoments (moments : List Highlight) : List Highlight :=
  (moments.map (fun m => { timestamp := jsTrim m.timestamp, description := jsTrim m.description })).filter
    (fun m => decide (0 < m.timestamp.length) && decide (0 < m.description.length))

/-- `sanitizeUserAnswer`: trim the text (falling back to the empty string) and
keep only the non-empty trimmed related segments. -/
def sanitizeUserAnswer (value : UserAnswerResult) : UserAnswerResult :=
  { text := if 0 < (jsTrim value.text).length then jsTrim value.text else ""
    relatedSegments := (value.relatedSegments.map (fun entry => jsTrim entry)).filter
      (fun entry => decide (0 < entry.length)) }

/-! ### Validation types (`types.ts`) and the correction engine (`llmService.ts`) -/

/-- `ValidationField`: the TS union `summary | keyMoments | customAnswer`. -/
inductive ValidationField where
  | summary | keyMoments | customAnswer
deriving DecidableEq

/-- The string literal carried by a `ValidationField` value. -/
def fieldName : ValidationField → String
  | .summary => "summary"
  | .keyMoments => "keyMoments"
  | .customAnswer => "customAnswer"

/-- `CorrectionAction`: the TS union `replace | remove | add`. -/
inductive CorrectionAction where
  | replace | remove | add
deriving DecidableEq

/-- `IssueType` from `types.ts` (carried along, never inspected by the engine). -/
inductive IssueType where
  | incorrectTimestamp | hallucination | missingInfo | inaccurateDescription | wrongLanguage
deriving DecidableEq

/-- `correction.value`: either a bare string or a duck-typed object whose
`text`/`timestamp`/`description`/`relatedSegments` properties may each be
absent (`undefined`). -/
inductive CorrectionValue where
  | str (s : String)
  | obj (text timestamp description : Option String) (relatedSegments : Option (List String))
deriving DecidableEq

/-- JS property read `value.text` (undefined on a bare string). -/
def cvText : CorrectionValue → Option String
  | .str _ => none
  | .obj t _ _ _ => t

/-- JS property read `value.timestamp`. -/
def cvTimestamp : CorrectionValue → Option String
  | .str _ => none
  | .obj _ ts _ _ => ts

/-- JS property read `value.description`. -/
def cvDescription : CorrectionValue → Option String
  | .str _ => none
  | .obj _ _ d _ => d

/-- JS property read `value.relatedSegments`. -/
def cvSegments : CorrectionValue → Option (List String)
  | .str _ => none
  | .obj _ _ _ rs => rs

/-- JS truthiness of a `correction.value`: objects are truthy, a string is
truthy when non-empty. -/
def cvTruthy : CorrectionValue → Bool
  | .str s => !(s == "")
  | .obj _ _ _ _ => true

/-- JS truthiness of a possibly-`undefined` `correction.value`. -/
def cvoTruthy : Option CorrectionValue → Bool
  | none => false
  | some v => cvTruthy v

/-- JS truthiness filter on a possibly-`undefined` string: keeps only a
present, non-empty string. -/
def strTruthy : Option String → Option String
  | none => none
  | some s => if s == "" then none else some s

/-- JS `a || b` for a possibly-`undefined` string `a` and a string default. -/
def jsOrStr (o : Option String) (dflt : String) : String :=
  match strTruthy o with
  | some s => s
  | none => dflt

/-- `ValidationCorrection` from `types.ts`. -/
structure ValidationCorrection where
  action : CorrectionAction
  value : Option CorrectionValue := none
deriving DecidableEq

/-- `ValidationIssue` from `types.ts` (`index` is a possibly-absent JS number). -/
structure ValidationIssue where
  field : ValidationField
  index : Option Int := none
  issueType : IssueType
  description : String
  correction : ValidationCorrection
deriving DecidableEq

/-- `ValidationResult` from `types.ts`. -/
structure ValidationResult where
  isValid : Bool
  issues : List ValidationIssue
deriving DecidableEq

/-- `String.prototype.localeCompare`, specialised to the ASCII field names the
comparator meets, where locale order and code-unit order agree. -/
def localeCompare (a b : String) : Int :=
  if a < b then -1 else if a = b then 0 else 1

/-- Is this the `remove` action? -/
def isRemoveAction (a : CorrectionAction) : Bool :=
  a == CorrectionAction.remove

/-- `issue.index ?? 0`. -/
def idxOrZero (issue : ValidationIssue) : Int :=
  issue.index.getD 0

/-- The comparator passed to `Array.prototype.sort` in `applyCorrections`:
field names first, then non-`remove` before `remove`, then descending index. -/
def cmpIssues (a b : ValidationIssue) : Int :=
  if a.field ≠ b.field then localeCompare (fieldName a.field) (fieldName b.field)
  else if isRemoveAction a.correction.action && !(isRemoveAction b.correction.action) then 1
  else if !(isRemoveAction a.correction.action) && isRemoveAction b.correction.action then -1
  else idxOrZero b - idxOrZero a

/-- "`a` may come before `b`" for the JS sort: the comparator is ≤ 0. -/
def issueLE (a b : ValidationIssue) : Prop :=
  cmpIssues a b ≤ 0

instance : DecidableRel issueLE :=
  fun a b => inferInstanceAs (Decidable (cmpIssues a b ≤ 0))

/-- Explicit reading of `issueLE`, used to state the ordering theorem. -/
def issueBefore (a b : ValidationIssue) : Prop :=
  (a.field ≠ b.field ∧ fieldName a.field < fieldName b.field) ∨
  (a.field = b.field ∧
    ((isRemoveAction a.correction.action = false ∧ isRemoveAction b.correction.action = true) ∨
     (isRemoveAction a.correction.action = isRemoveAction b.correction.action ∧
      idxOrZero b ≤ idxOrZero a)))

theorem fieldName_inj {a b : ValidationField} (h : fieldName a = fieldName b) : a = b := by
  cases a <;> cases b <;> simp_all [fieldName]

theorem issueLE_iff (a b : ValidationIssue) : issueLE a b ↔ issueBefore a b := by
  unfold issueLE issueBefore cmpIssues localeCompare
  by_cases hf : a.field = b.field
  · simp only [hf, ne_eq, not_true_eq_false, if_false]
    cases hra : isRemoveAction a.correction.action <;>
      cases hrb : isRemoveAction b.correction.action <;>
        simp [hra, hrb]
  · have hn : fieldName a.field ≠ fieldName b.field := fun h => hf (fieldName_inj h)
    simp only [hf, ne_eq, not_false_eq_true, if_true, false_and, or_false, true_and]
    by_cases hlt : fieldName a.field < fieldName b.field
    · simp [hlt]
    · simp [hlt, hn]

instance : IsTrans ValidationIssue issueLE where
  trans := by
    intro a b c hab hbc
    rw [issueLE_iff] at *
    rcases hab with ⟨hne₁, hlt₁⟩ | ⟨heq₁, hsub₁⟩ <;>
      rcases hbc with ⟨hne₂, hlt₂⟩ | ⟨heq₂, hsub₂⟩
    · refine Or.inl ⟨fun h => ?_, lt_trans hlt₁ hlt₂⟩
      exact absurd (h ▸ lt_trans hlt₁ hlt₂) (lt_irrefl _)
    · refine Or.inl ⟨fun h => hne₁ (h.trans heq₂.symm), heq₂ ▸ hlt₁⟩
    · refine Or.inl ⟨fun h => hne₂ (heq₁.symm.trans h), heq₁ ▸ hlt₂⟩
    · refine Or.inr ⟨heq₁.trans heq₂, ?_⟩
      rcases hsub₁ with ⟨ha₁, hb₁⟩ | ⟨hab₁, hi₁⟩ <;>
        rcases hsub₂ with ⟨hb₂, hc₂⟩ | ⟨hbc₂, hi₂⟩
      · exact absurd (hb₂ ▸ hb₁) (by simp)
      · exact Or.inl ⟨ha₁, hbc₂ ▸ hb₁⟩
      · exact Or.inl ⟨hab₁ ▸ hb₂, hc₂⟩
      · exact Or.inr ⟨hab₁.trans hbc₂, le_trans hi₂ hi₁⟩

instance : IsTotal ValidationIssue issueLE where
  total := by
    intro a b
    rw [issueLE_iff, issueLE_iff]
    by_cases hf : a.field = b.field
    · rcases Int.le_total (idxOrZero b) (idxOrZero a) with hi | hi <;>
        cases hra : isRemoveAction a.correction.action <;>
          cases hrb : isRemoveAction b.correction.action <;>
            first
              | exact Or.inl (Or.inr ⟨hf, Or.inl ⟨hra, hrb⟩⟩)
              | exact Or.inr (Or.inr ⟨hf.symm, Or.inl ⟨hrb, hra⟩⟩)
              | exact Or.inl (Or.inr ⟨hf, Or.inr ⟨hra.trans hrb.symm, hi⟩⟩)
              | exact Or.inr (Or.inr ⟨hf.symm, Or.inr ⟨hrb.trans hra.symm, hi⟩⟩)
    · have hn : fieldName a.field ≠ fieldName b.field := fun h => hf (fieldName_inj h)
      rcases lt_or_gt_of_ne hn with hlt | hlt
      · exact Or.inl (Or.inl ⟨hf, hlt⟩)
      · exact Or.inr (Or.inl ⟨fun h => hf h.symm, hlt⟩)

/-- The sorted copy `[...issues].sort(comparator)`.  JS `sort` is stable, and
for a consistent comparator a stable sort is unique, so Mathlib's (stable)
insertion sort is a faithful embedding. -/
def sortIssues (issues : List ValidationIssue) : List ValidationIssue :=
  List.insertionSort issueLE issues

/-- The `add` fall-through branch of the `keyMoments` case (reached when the
index is absent or negative). -/
def keyMomentsAdd (r : AnalysisResult) (issue : ValidationIssue) : AnalysisResult :=
  match issue.correction.action, issue.correction.value with
  | .add, some v =>
    if cvTruthy v then
      let newMoment : Highlight :=
        { timestamp := jsOrStr (cvTimestamp v) "00:00"
          description := jsOrStr (cvDescription v) (jsOrStr (cvText v) "") }
      { r with keyMoments := r.keyMoments ++ [newMoment] }
    else r
  | _, _ => r

/-- One iteration of the `for (const issue of sortedIssues)` loop body. -/
def applyIssue (r : AnalysisResult) (issue : ValidationIssue) : AnalysisResult :=
  match issue.field with
  | .summary =>
    match issue.correction.action, issue.correction.value with
    | .replace, some v =>
      if cvTruthy v then
        let newValue : Option String :=
          match v with
          | .str s => some s
          | .obj t _ d _ =>
            match strTruthy t with
            | some s => some s
            | none => d
        match strTruthy newValue with
        | some s => { r with summary := s }
        | none => r
      else r
    | _, _ => r
  | .keyMoments =>
    match issue.index with
    | some i =>
      if 0 ≤ i then
        if issue.correction.action = .remove then
          { r with keyMoments := r.keyMoments.eraseIdx i.toNat }
        else
          match issue.correction.action, issue.correction.value with
          | .replace, some v =>
            if cvTruthy v then
              let newMoment : Highlight :=
                { timestamp := jsOrStr (cvTimestamp v)
                    (jsOrStr ((r.keyMoments[i.toNat]?).map Highlight.timestamp) "00:00")
                  description := jsOrStr (cvDescription v) (jsOrStr (cvText v) "") }
              if i.toNat < r.keyMoments.length then
                { r with keyMoments := r.keyMoments.set i.toNat newMoment }
              else r
            else r
          | _, _ => r
      else keyMomentsAdd r issue
    | none => keyMomentsAdd r issue
  | .customAnswer =>
    match issue.correction.action, issue.correction.value with
    | .remove, _ => { r with customAnswer := none }
    | .replace, some v =>
      if cvTruthy v then
        let newAnswer : UserAnswerResult :=
          { text := jsOrStr (cvText v) "", relatedSegments := (cvSegments v).getD [] }
        { r with customAnswer := some newAnswer }
      else r
    | .add, some v =>
      if cvTruthy v ∧ r.customAnswer = none then
        let newAnswer : UserAnswerResult :=
          { text := jsOrStr (cvText v) "", relatedSegments := (cvSegments v).getD [] }
        { r with customAnswer := some newAnswer }
      else r
    | _, _ => r

/-- `JSON.parse(JSON.stringify(result))`: on this data model (plain strings,
arrays and objects, `customAnswer` omitted when absent) the round trip is the
identity; it exists in the source only to protect the caller from mutation. -/
def deepCopy (r : AnalysisResult) : AnalysisResult := r

/-- `applyCorrections` from `llmService.ts`. -/
def applyCorrections (result : AnalysisResult) (issues : List ValidationIssue) : AnalysisResult :=
  (sortIssues issues).foldl applyIssue (deepCopy result)

/-- Modelled from the spec: the processing order the specification describes
("within a field apply `remove` actions on `keyMoments` in descending index
order before any `replace`/`add`"), i.e. the comparator with the
remove-versus-other branches returning the opposite signs. -/
def cmpIssuesSpec (a b : ValidationIssue) : Int :=
  if a.field ≠ b.field then localeCompare (fieldName a.field) (fieldName b.field)
  else if isRemoveAction a.correction.action && !(isRemoveAction b.correction.action) then -1
  else if !(isRemoveAction a.correction.action) && isRemoveAction b.correction.action then 1
  else idxOrZero b - idxOrZero a

/-- Modelled from the spec: `issueLE` for the spec's claimed ordering. -/
def issueLESpec (a b : ValidationIssue) : Prop :=
  cmpIssuesSpec a b ≤ 0

instance : DecidableRel issueLESpec :=
  fun a b => inferInstanceAs (Decidable (cmpIssuesSpec a b ≤ 0))

/-- Modelled from the spec: sorting with the spec's claimed order. -/
def sortIssuesSpec (issues : List ValidationIssue) : List ValidationIssue :=
  List.insertionSort issueLESpec issues

/-- Modelled from the spec: `applyCorrections` processing issues in the order
the specification claims. -/
def applyCorrectionsSpec (result : AnalysisResult) (issues : List ValidationIssue) : AnalysisResult :=
  (sortIssuesSpec issues).foldl applyIssue (deepCopy result)

/-! ### Provider adapter and validation service (`llmService.ts`) -/

/-- The error thrown by `ensureCredentials`: `new Error('API Key not configured')`. -/
def configurationError : JsError :=
  { name := "Error", message := "API Key not configured", isTimeoutInstance := false }

/-- `ensureCredentials`: throw when the credentials are missing or the key is
empty/whitespace after trimming. -/
def ensureCredentials (credentials : Option ApiCredentials) : Except JsError Unit :=
  match credentials with
  | none => .error configurationError
  | some c => if jsTrim c.key = "" then .error configurationError else .ok ()

/-- `mapProviderLabel`. -/
def mapProviderLabel : LLMProvider → String
  | .google => "Google Gemini"
  | .openai => "OpenAI"
  | .anthropic => "Anthropic"
  | .groq => "Groq"
  | .deepseek => "DeepSeek"

/-- `answerUserQuestion`: credentials check, then one model call (its outcome
abstracted as `callOutcome`), then sanitization of the parsed answer. -/
def answerUserQuestion (credentials : Option ApiCredentials)
    (callOutcome : Except JsError UserAnswerResult) : Except JsError UserAnswerResult :=
  match ensureCredentials credentials with
  | .error e => .error e
  | .ok _ =>
    match callOutcome with
    | .error e => .error e
    | .ok response => .ok (sanitizeUserAnswer response)

/-- The post-processing `analyzeVideo` applies to the parsed model response:
keep the summary when it is a string (else empty) and sanitize the moments. -/
def analyzeVideoResult (rawSummary : Option String) (rawMoments : List Highlight) : AnalysisCore :=
  { summary := rawSummary.getD "", keyMoments := sanitizeKeyMoments rawMoments }

/-- `analyzeVideo`: credentials check, then one model call, then sanitization. -/
def analyzeVideo (credentials : Option ApiCredentials)
    (callOutcome : Except JsError (Option String × List Highlight)) :
    Except JsError AnalysisCore :=
  match ensureCredentials credentials with
  | .error e => .error e
  | .ok _ =>
    match callOutcome with
    | .error e => .error e
    | .ok response => .ok (analyzeVideoResult response.1 response.2)

/-- `validateResult`: one model call; any failure is swallowed and treated as
`{isValid: true, issues: []}` (fail-open). -/
def validateResult (callOutcome : Except JsError ValidationResult) : ValidationResult :=
  match callOutcome with
  | .ok v => v
  | .error _ => { isValid := true, issues := [] }

/-- `validateAndFixResult`: run the validation call, short-circuit when it is
valid (or found no issues), otherwise apply the corrections; in both branches
pass `keyMoments` through the final `sanitizeKeyMoments` safety filter. -/
def validateAndFixResult (result : AnalysisResult)
    (callOutcome : Except JsError ValidationResult) : AnalysisResult :=
  let validation := validateResult callOutcome
  if validation.isValid || validation.issues.length == 0 then
    { result with keyMoments := sanitizeKeyMoments result.keyMoments }
  else
    let correctedResult := applyCorrections result validation.issues
    { correctedResult with keyMoments := sanitizeKeyMoments correctedResult.keyMoments }

/-- `improveResult`: credentials check, then `validateAndFixResult` (the
validation call outcome abstracted as `validationOutcome`). -/
def improveResult (credentials : Option ApiCredentials) (result : AnalysisResult)
    (validationOutcome : Except JsError ValidationResult) : Except JsError AnalysisResult :=
  match ensureCredentials credentials with
  | .error e => .error e
  | .ok _ => .ok (validateAndFixResult result validationOutcome)

/-- `validateProviderCredentials`: credentials check outside the try/catch,
then a minimal probe call whose failure is re-labelled with the provider name. -/
def validateProviderCredentials (credentials : Option ApiCredentials)
    (probeOutcome : Except JsError Unit) : Except JsError Unit :=
  match credentials with
  | none => .error configurationError
  | some c =>
    if jsTrim c.key = "" then .error configurationError
    else
      match probeOutcome with
      | .ok _ => .ok ()
      | .error e =>
        let label := mapProviderLabel c.provider
        let msg := if jsTrim e.message = "" then
            "Unable to reach " ++ label ++ ". Please verify the API key." else jsTrim e.message
        .error { name := "Error", message := label ++ ": " ++ msg, isTimeoutInstance := false }

/-! ### Timeout and retry (`App.tsx`) -/

/-- `SUMMARY_TIMEOUT_MS` from `App.tsx`. -/
def SUMMARY_TIMEOUT_MS : Nat := 45000

/-- `MAX_RETRY_ATTEMPTS` from `App.tsx` (total attempts: 1 original + 2 retries). -/
def MAX_RETRY_ATTEMPTS : Nat := 3

/-- The retryability test of `withTimeoutAndRetry`: a `TimeoutError` instance,
a message mentioning network/fetch/connection, or a `TypeError`. -/
def isRetryable (e : JsError) : Bool :=
  e.isTimeoutInstance ||
  occursIn "network" (jsToLower e.message) ||
  occursIn "fetch" (jsToLower e.message) ||
  occursIn "connection" (jsToLower e.message) ||
  e.name == "TypeError"

/-- The error thrown when the retry loop is never entered:
`new Error('Unknown error')`. -/
def unknownError : JsError :=
  { name := "Error", message := "Unknown error", isTimeoutInstance := false }

/-- The `for` loop of `withTimeoutAndRetry`.  `attemptOutcome k` is the result
of the `k`-th (1-based) attempt after the timeout wrapper (a timeout expiry
surfaces as an error with `isTimeoutInstance = true`).  Returns the final
outcome together with the number of attempts actually made.  The fuel mirrors
the loop bound `attempt <= maxAttempts` and is only exhausted when the loop is
never entered (`maxAttempts = 0`), where the source throws `Unknown error`. -/
def retryGo {α : Type} (attemptOutcome : Nat → Except JsError α) (maxAttempts : Nat) :
    Nat → Nat → Except JsError α × Nat
  | attempt, 0 => (.error unknownError, attempt - 1)
  | attempt, fuel + 1 =>
    match attemptOutcome attempt with
    | .ok v => (.ok v, attempt)
    | .error e =>
      if isRetryable e && decide (attempt < maxAttempts) then
        retryGo attemptOutcome maxAttempts (attempt + 1) fuel
      else (.error e, attempt)

/-- `withTimeoutAndRetry` from `App.tsx` (the timeout budget and the 500 ms
inter-attempt delay are real-time effects folded into `attemptOutcome`). -/
def withTimeoutAndRetry {α : Type} (attemptOutcome : Nat → Except JsError α)
    (maxAttempts : Nat) : Except JsError α × Nat :=
  retryGo attemptOutcome maxAttempts 1 maxAttempts

/-! ### The summarize orchestration (`App.tsx`, `handleSummarize`) -/

/-- `Promise.all` over two settled outcomes.  When both reject, the real
`Promise.all` surfaces whichever rejection happens first in time; the embedding
picks the first argument's error (no claim depends on the choice). -/
def promiseAll2 {β γ : Type} (x : Except JsError β) (y : Except JsError γ) :
    Except JsError (β × γ) :=
  match x, y with
  | .ok a, .ok b => .ok (a, b)
  | .error e, _ => .error e
  | .ok _, .error e => .error e

/-- The merged preliminary result built by `handleSummarize` when a user
question is present. -/
def mergeResults (answer : UserAnswerResult) (analysis : AnalysisCore) : AnalysisResult :=
  { customAnswer := some answer, summary := analysis.summary, keyMoments := analysis.keyMoments }

/-- The question branch of `handleSummarize`: two parallel calls through the
timeout/retry wrapper, merged with `Promise.all` semantics. -/
def handleSummarizeWithQuestion
    (answerAttempts : Nat → Except JsError UserAnswerResult)
    (analysisAttempts : Nat → Except JsError AnalysisCore) : Except JsError AnalysisResult :=
  match promiseAll2 (withTimeoutAndRetry answerAttempts MAX_RETRY_ATTEMPTS).1
      (withTimeoutAndRetry analysisAttempts MAX_RETRY_ATTEMPTS).1 with
  | .ok pair => .ok (mergeResults pair.1 pair.2)
  | .error e => .error e

/-- The visible result once the background improve phase settles: the improved
result on success, the untouched preliminary result on failure. -/
def visibleAfterImprove (preliminary : AnalysisResult)
    (improveOutcome : Except JsError AnalysisResult) : AnalysisResult :=
  match improveOutcome with
  | .ok improved => improved
  | .error _ => preliminary

/-! ### Result cache (`summaryCacheService.ts`) -/

/-- `StoredSummary`. -/
structure StoredSummary where
  videoId : String
  result : AnalysisResult
  videoUrl : String
  language : String
  userQuery : String
  createdAt : Nat
  updatedAt : Nat
deriving DecidableEq

/-- The state of the IndexedDB backend as one cache operation observes it:
which of the asynchronous steps fail (and with which error), plus the stored
entries. -/
structure CacheEnv where
  openFailure : Option JsError := none
  getFailure : Option JsError := none
  getAllFailure : Option JsError := none
  putFailure : Option JsError := none
  entries : List StoredSummary := []
deriving DecidableEq

/-- `getSummary`: the try/catch around `openDatabase()` turns an open failure
into `null`, but the promise returned from inside the `try` block is not
awaited there, so a failing `get` request rejects the caller. -/
def getSummary (env : CacheEnv) (videoId : String) : Except JsError (Option StoredSummary) :=
  match env.openFailure with
  | some _ => .ok none
  | none =>
    match env.getFailure with
    | some e => .error e
    | none => .ok (env.entries.find? (fun s => s.videoId == videoId))

/-- `getAllSummaries`: same structure as `getSummary`, with `[]` as the
degraded value. -/
def getAllSummaries (env : CacheEnv) : Except JsError (List StoredSummary) :=
  match env.openFailure with
  | some _ => .ok []
  | none =>
    match env.getAllFailure with
    | some e => .error e
    | none => .ok env.entries

/-- `store.put` with `keyPath: 'videoId'`: replace the entry with the same key
or append a new one. -/
def upsertStored (entries : List StoredSummary) (entry : StoredSummary) : List StoredSummary :=
  if entries.any (fun s => s.videoId == entry.videoId) then
    entries.map (fun s => if s.videoId == entry.videoId then entry else s)
  else entries ++ [entry]

/-- `saveSummary`: `await openDatabase()` has no surrounding try/catch, so an
open failure rejects; a failing `get` request falls back to a fresh
`createdAt`; a failing `put` rejects; otherwise upsert preserving `createdAt`. -/
def saveSummary (env : CacheEnv) (videoId : String) (result : AnalysisResult)
    (videoUrl language userQuery : String) (now : Nat) :
    Except JsError (List StoredSummary) :=
  match env.openFailure with
  | some e => .error e
  | none =>
    let existing := env.entries.find? (fun s => s.videoId == videoId)
    let createdAt :=
      match env.getFailure, existing with
      | none, some prior => prior.createdAt
      | _, _ => now
    match env.putFailure with
    | some e => .error e
    | none => .ok (upsertStored env.entries
        { videoId := videoId, result := result, videoUrl := videoUrl, language := language,
          userQuery := userQuery, createdAt := createdAt, updatedAt := now })

/-- The call sites in `handleSummarize` attach
`saveSummary(...).catch(err => console.warn(...))`: a rejected save is logged
and swallowed. -/
def saveSummaryAtCallSite (env : CacheEnv) (videoId : String) (result : AnalysisResult)
    (videoUrl language userQuery : String) (now : Nat) : Option (List StoredSummary) :=
  match saveSummary env videoId result videoUrl language userQuery now with
  | .ok entries => some entries
  | .error _ => none

/-! ### Response parser (`llmService.ts`): `JSON.parse`, fence and brace
extraction, `parseJsonContent` -/

/-- A parsed JSON document.  Numbers keep their literal text: the pipeline
never computes with them, and parse success/failure is all the response
parser's control flow depends on. -/
inductive JValue where
  | null
  | jbool (b : Bool)
  | num (lit : String)
  | str (s : String)
  | arr (elems : List JValue)
  | obj (fields : List (String × JValue))

/-- JSON insignificant whitespace. -/
def skipJsonWs (cs : List Char) : List Char :=
  List.dropWhile (fun c => c == ' ' || c == '\t' || c == '\n' || c == '\r') cs

/-- Value of one hexadecimal digit. -/
def hexVal (c : Char) : Option Nat :=
  if '0' ≤ c ∧ c ≤ '9' then some (c.toNat - '0'.toNat)
  else if 'a' ≤ c ∧ c ≤ 'f' then some (c.toNat - 'a'.toNat + 10)
  else if 'A' ≤ c ∧ c ≤ 'F' then some (c.toNat - 'A'.toNat + 10)
  else none

/-- Single-character JSON string escapes. -/
def escapeChar (c : Char) : Option Char :=
  if c = '"' then some '"'
  else if c = '\\' then some '\\'
  else if c = '/' then some '/'
  else if c = 'b' then some '\x08'
  else if c = 'f' then some '\x0c'
  else if c = 'n' then some '\n'
  else if c = 'r' then some '\r'
  else if c = 't' then some '\t'
  else none

/-- Body of a JSON string, after the opening quote: collect characters,
handling escapes, until the closing quote. -/
def parseStringBody : List Char → List Char → Option (String × List Char)
  | [], _ => none
  | c :: rest, acc =>
    if c = '"' then some (String.mk acc.reverse, rest)
    else if c = '\\' then
      match rest with
      | [] => none
      | e :: rest2 =>
        match escapeChar e with
        | some ec => parseStringBody rest2 (ec :: acc)
        | none =>
          if e = 'u' then
            match rest2 with
            | h1 :: h2 :: h3 :: h4 :: rest3 =>
              match hexVal h1, hexVal h2, hexVal h3, hexVal h4 with
              | some a, some b, some c2, some d =>
                parseStringBody rest3 (Char.ofNat (((a * 16 + b) * 16 + c2) * 16 + d) :: acc)
              | _, _, _, _ => none
            | _ => none
          else none
    else if c.toNat < 32 then none
    else parseStringBody rest (c :: acc)

/-- Longest digit run at the front. -/
def spanDigits (cs : List Char) : List Char × List Char :=
  (cs.takeWhile Char.isDigit, cs.dropWhile Char.isDigit)

/-- Optional fraction part of a JSON number. -/
def parseFracPart : List Char → Option (List Char × List Char)
  | [] => some ([], [])
  | c :: rest =>
    if c = '.' then
      match spanDigits rest with
      | ([], _) => none
      | (ds, rest2) => some (c :: ds, rest2)
    else some ([], c :: rest)

/-- Optional exponent part of a JSON number. -/
def parseExpPart : List Char → Option (List Char × List Char)
  | [] => some ([], [])
  | c :: rest =>
    if c = 'e' ∨ c = 'E' then
      let signAndRest : List Char × List Char :=
        match rest with
        | s :: r2 => if s = '+' ∨ s = '-' then ([s], r2) else ([], rest)
        | [] => ([], rest)
      match spanDigits signAndRest.2 with
      | ([], _) => none
      | (ds, rest3) => some (c :: (signAndRest.1 ++ ds), rest3)
    else some ([], c :: rest)

/-- A JSON number literal (sign, integer part without leading zeros, optional
fraction and exponent). -/
def parseNumberLit (cs : List Char) : Option (String × List Char) :=
  let negAndRest : List Char × List Char :=
    match cs with
    | '-' :: rest => (['-'], rest)
    | _ => ([], cs)
  match negAndRest.2 with
  | [] => none
  | d :: rest =>
    let intAndRest : Option (List Char × List Char) :=
      if d = '0' then some (['0'], rest)
      else if d.isDigit then
        let sp := spanDigits rest
        some (d :: sp.1, sp.2)
      else none
    match intAndRest with
    | none => none
    | some (ip, rest2) =>
      match parseFracPart rest2 with
      | none => none
      | some (fp, rest3) =>
        match parseExpPart rest3 with
        | none => none
        | some (ep, rest4) => some (String.mk (negAndRest.1 ++ ip ++ fp ++ ep), rest4)

/-- What the recursive-descent parser is currently parsing. -/
inductive JMode where
  | value
  | arrElems
  | objMembers
deriving DecidableEq

/-- An intermediate parse result. -/
inductive JPartial where
  | val (v : JValue)
  | elems (vs : List JValue)
  | members (fs : List (String × JValue))

/-- One fuelled recursive-descent step of the JSON grammar.  The fuel only
bounds the recursion (it never changes the accepted language when the initial
fuel exceeds the input length). -/
def parseRun : Nat → JMode → List Char → Option (JPartial × List Char)
  | 0, _, _ => none
  | fuel + 1, .value, cs =>
    match skipJsonWs cs with
    | [] => none
    | c :: rest =>
      if c = '"' then
        match parseStringBody rest [] with
        | some (s, rest2) => some (.val (.str s), rest2)
        | none => none
      else if c = '\x7b' then
        match skipJsonWs rest with
        | '\x7d' :: rest2 => some (.val (.obj []), rest2)
        | rest2 =>
          match parseRun fuel .objMembers rest2 with
          | some (.members fs, rest3) => some (.val (.obj fs), rest3)
          | _ => none
      else if c = '[' then
        match skipJsonWs rest with
        | ']' :: rest2 => some (.val (.arr []), rest2)
        | rest2 =>
          match parseRun fuel .arrElems rest2 with
          | some (.elems vs, rest3) => some (.val (.arr vs), rest3)
          | _ => none
      else if c = 't' then
        match rest with
        | 'r' :: 'u' :: 'e' :: rest2 => some (.val (.jbool true), rest2)
        | _ => none
      else if c = 'f' then
        match rest with
        | 'a' :: 'l' :: 's' :: 'e' :: rest2 => some (.val (.jbool false), rest2)
        | _ => none
      else if c = 'n' then
        match rest with
        | 'u' :: 'l' :: 'l' :: rest2 => some (.val .null, rest2)
        | _ => none
      else
        match parseNumberLit (c :: rest) with
        | some (lit, rest2) => some (.val (.num lit), rest2)
        | none => none
  | fuel + 1, .arrElems, cs =>
    match parseRun fuel .value cs with
    | some (.val v, rest) =>
      (match skipJsonWs rest with
       | ']' :: rest2 => some (.elems [v], rest2)
       | ',' :: rest2 =>
         match parseRun fuel .arrElems rest2 with
         | some (.elems vs, rest3) => some (.elems (v :: vs), rest3)
         | _ => none
       | _ => none)
    | _ => none
  | fuel + 1, .objMembers, cs =>
    match skipJsonWs cs with
    | '"' :: rest =>
      (match parseStringBody rest [] with
       | some (k, rest2) =>
         (match skipJsonWs rest2 with
          | ':' :: rest3 =>
            (match parseRun fuel .value rest3 with
             | some (.val v, rest4) =>
               (match skipJsonWs rest4 with
                | '\x7d' :: rest5 => some (.members [(k, v)], rest5)
                | ',' :: rest5 =>
                  match parseRun fuel .objMembers rest5 with
                  | some (.members fs, rest6) => some (.members ((k, v) :: fs), rest6)
                  | _ => none
                | _ => none)
             | _ => none)
          | _ => none)
       | none => none)
    | _ => none

/-- Embedding of `JSON.parse`: parse one value and require only whitespace
after it; `none` models a thrown `SyntaxError`. -/
def jsonParse (s : String) : Option JValue :=
  match parseRun (s.data.length + 2) .value s.data with
  | some (.val v, rest) => if skipJsonWs rest = [] then some v else none
  | _ => none

/-- The regex `/```json([\s\S]*?)```/i`: content of the first
(case-insensitive) ```json fence, up to the earliest closing ``` after it.
If the first ```json has no closing fence, no later one can have either (any
later ```json itself starts with ``` and would have closed the first), so the
regex fails. -/
def fencedJson (cs : List Char) : Option (List Char) :=
  match splitAtSubCI "```json".data cs with
  | none => none
  | some (_, rest) =>
    match splitAtSub "```".data rest with
    | none => none
    | some (content, _) => some content

/-- The regex `/```([\s\S]*?)```/i`: content between the first ``` fence and
the earliest closing ``` after it. -/
def fencedAny (cs : List Char) : Option (List Char) :=
  match splitAtSub "```".data cs with
  | none => none
  | some (_, rest) =>
    match splitAtSub "```".data rest with
    | none => none
    | some (content, _) => some content

/-- `raw.slice(firstBrace, lastBrace + 1)` when the first `\x7b` comes before
the last `\x7d`. -/
def braceSlice (raw : String) : Option String :=
  match raw.data.findIdx? (fun c => c == '\x7b') with
  | none => none
  | some firstBrace =>
    match raw.data.reverse.findIdx? (fun c => c == '\x7d') with
    | none => none
    | some revIdx =>
      let lastBrace := raw.data.length - 1 - revIdx
      if firstBrace < lastBrace then
        some (String.mk ((raw.data.drop firstBrace).take (lastBrace + 1 - firstBrace)))
      else none

/-- The brace-substring fallback of `extractJsonFromText`, ending in
`raw.trim()` when no suitable brace pair exists. -/
def braceOrTrim (raw : String) : String :=
  match braceSlice raw with
  | some s => s
  | none => jsTrim raw

/-- `extractJsonFromText`: the single fallback candidate.  The fenced match is
consulted first (```json before a generic fence); its captured group is used
only when non-empty (JS truthiness of `fenced?.[1]`); otherwise the brace
substring; otherwise the trimmed raw text. -/
def extractJsonFromText (raw : String) : String :=
  let fenced :=
    match fencedJson raw.data with
    | some content => some content
    | none => fencedAny raw.data
  match fenced with
  | some content => if content ≠ [] then jsTrim (String.mk content) else braceOrTrim raw
  | none => braceOrTrim raw

/-- `parseJsonContent`: direct `JSON.parse`, then at most one parse of the
extracted candidate (only when it differs from the raw text), then a thrown
error naming the context (the raw text is logged, not attached). -/
def parseJsonContent (raw : String) (context : String) : Except String JValue :=
  match jsonParse raw with
  | some v => .ok v
  | none =>
    let fallback := extractJsonFromText raw
    if fallback ≠ raw then
      match jsonParse fallback with
      | some v => .ok v
      | none => .error (context ++ " returned invalid JSON")
    else .error (context ++ " returned invalid JSON")

/-- The preliminary `AnalysisResult` assembled by `handleSummarize` from the
analysis call's output and (when a question was asked) the answer call's
output. -/
def preliminaryOf (answer : Option UserAnswerResult) (core : AnalysisCore) : AnalysisResult :=
  { customAnswer := answer, summary := core.summary, keyMoments := core.keyMoments }

/-! ### Concrete sample values used by witnesses and counterexamples -/

/-- Sample highlight. -/
def momentA : Highlight := { timestamp := "00:01", description := "intro" }

/-- Sample highlight. -/
def momentB : Highlight := { timestamp := "00:02", description := "middle" }

/-- Sample highlight. -/
def momentC : Highlight := { timestamp := "00:03", description := "finale" }

/-- A `keyMoments` `remove` issue at index `i`. -/
def removeAt (i : Int) : ValidationIssue :=
  { field := .keyMoments, index := some i, issueType := .hallucination,
    description := "hallucinated moment", correction := { action := .remove } }

/-- A `replace` correction carrying a fresh timestamp and description. -/
def replaceCorrection : ValidationCorrection :=
  { action := .replace, value := some (.obj none (some "09:59") (some "fixed") none) }

/-- A `keyMoments` `replace` issue at index `i`. -/
def replaceAt (i : Int) : ValidationIssue :=
  { field := .keyMoments, index := some i, issueType := .incorrectTimestamp,
    description := "wrong timestamp", correction := replaceCorrection }

/-- Sample result with two key moments. -/
def sampleResult2 : AnalysisResult := { summary := "s", keyMoments := [momentA, momentB] }

/-- Sample result with three key moments. -/
def sampleResult3 : AnalysisResult := { summary := "s", keyMoments := [momentA, momentB, momentC] }

/-- Sample storage-layer error. -/
def storageError : JsError :=
  { name := "Error", message := "storage failure", isTimeoutInstance := false }

/-- Cache backend whose `indexedDB.open` fails. -/
def openFailEnv : CacheEnv := { openFailure := some storageError }

/-- Cache backend that opens but whose `get` request fails. -/
def getFailEnv : CacheEnv := { getFailure := some storageError }

/-- A classified timeout error as produced by the timeout wrapper. -/
def timeoutSample : JsError :=
  { name := "TimeoutError", message := "Video analysis timed out after 45 seconds",
    isTimeoutInstance := true }

/-- A non-retryable (auth-shaped) error. -/
def authSample : JsError :=
  { name := "Error", message := "Invalid API key", isTimeoutInstance := false }

/-- Credentials whose key is whitespace only. -/
def blankCreds : ApiCredentials := { provider := .google, key := "   " }

/-- The C3 counterexample input: a fenced block with unparsable contents,
followed by a parsable brace substring. -/
def fencedThenBraces : String := "```json\nnot json\n``` \x7b\"a\":1\x7d"

/-- Sample parsed answer. -/
def answerSample : UserAnswerResult := { text := "the answer", relatedSegments := ["00:01 - 00:10"] }

/-- Sample analysis core. -/
def coreSample : AnalysisCore := { summary := "sum", keyMoments := [momentA] }

/-! ## Theorems -/

/-! ### Trim and sanitizer lemmas -/

theorem dropWhile_of_prefix_dropWhile {α : Type} {p : α → Bool} {l t : List α}
    (h : t <+: List.dropWhile p l) : List.dropWhile p t = t := by
  cases t with
  | nil => rfl
  | cons c t2 =>
    obtain ⟨s, hs⟩ := h
    have hd : List.dropWhile p l = c :: (t2 ++ s) := by rw [← hs]; simp
    have h2 := List.head?_dropWhile_not p l
    rw [hd] at h2
    simp only [List.head?_cons] at h2
    rw [List.dropWhile_cons_of_neg (by simp [h2])]

theorem jsTrimList_idem (cs : List Char) : jsTrimList (jsTrimList cs) = jsTrimList cs := by
  unfold jsTrimList
  rw [dropWhile_of_prefix_dropWhile (List.rdropWhile_prefix _ _),
    List.rdropWhile_idempotent]

theorem jsTrim_idem (s : String) : jsTrim (jsTrim s) = jsTrim s := by
  unfold jsTrim
  exact congrArg String.mk (jsTrimList_idem s.data)

theorem string_ne_empty_of_length_pos {s : String} (h : 0 < s.length) : s ≠ "" := by
  intro heq
  rw [heq] at h
  simp at h

theorem mem_sanitizeKeyMoments {l : List Highlight} {h : Highlight}
    (hm : h ∈ sanitizeKeyMoments l) :
    jsTrim h.timestamp = h.timestamp ∧ 0 < h.timestamp.length ∧
    jsTrim h.description = h.description ∧ 0 < h.description.length := by
  unfold sanitizeKeyMoments at hm
  rw [List.mem_filter] at hm
  obtain ⟨hmap, hpred⟩ := hm
  rw [List.mem_map] at hmap
  obtain ⟨m, _, hme⟩ := hmap
  have hts : h.timestamp = jsTrim m.timestamp := by rw [← hme]
  have hds : h.description = jsTrim m.description := by rw [← hme]
  simp only [Bool.and_eq_true, decide_eq_true_eq] at hpred
  exact ⟨by rw [hts, jsTrim_idem], hpred.1, by rw [hds, jsTrim_idem], hpred.2⟩

theorem map_filter_fixed {α : Type} (f : α → α) (p : α → Bool) (l : List α)
    (hf : ∀ x ∈ l, f x = x) (hp : ∀ x ∈ l, p x = true) : (l.map f).filter p = l := by
  induction l with
  | nil => rfl
  | cons a t ih =>
    have ha : f a = a := hf a (by simp)
    have hpa : p a = true := hp a (by simp)
    simp only [List.map_cons, List.filter_cons, ha, hpa, if_true]
    rw [ih (fun x hx => hf x (by simp [hx])) (fun x hx => hp x (by simp [hx]))]

theorem sanitizeKeyMoments_idem (l : List Highlight) :
    sanitizeKeyMoments (sanitizeKeyMoments l) = sanitizeKeyMoments l := by
  conv_lhs => rw [sanitizeKeyMoments]
  apply map_filter_fixed
  · intro x hx
    obtain ⟨hts, _, hds, _⟩ := mem_sanitizeKeyMoments hx
    cases x
    simp_all
  · intro x hx
    obtain ⟨_, hts, _, hds⟩ := mem_sanitizeKeyMoments hx
    simp [hts, hds]

theorem validateAndFixResult_keyMoments_sanitized (result : AnalysisResult)
    (outcome : Except JsError ValidationResult) :
    ∃ l, (validateAndFixResult result outcome).keyMoments = sanitizeKeyMoments l := by
  unfold validateAndFixResult
  by_cases hc : ((validateResult outcome).isValid ||
      (validateResult outcome).issues.length == 0 : Bool)
  · exact ⟨result.keyMoments, by simp [hc]⟩
  · exact ⟨(applyCorrections result (validateResult outcome).issues).keyMoments, by simp [hc]⟩

/-- C1: every `Highlight` in the `keyMoments` of a result returned by
`validateAndFixResult` (and hence by `improveResult` when it succeeds) has a
non-empty trimmed `timestamp` and a non-empty trimmed `description`,
regardless of the validation outcome and of the issues applied; the final
`sanitizeKeyMoments` pass drops every violating entry rather than leaving it
partially filled. -/
theorem C1_keyMoments_invariant :
    (∀ (result : AnalysisResult) (outcome : Except JsError ValidationResult) (h : Highlight),
      h ∈ (validateAndFixResult result outcome).keyMoments →
      jsTrim h.timestamp ≠ "" ∧ jsTrim h.description ≠ "") ∧
    (∀ (credentials : Option ApiCredentials) (result : AnalysisResult)
       (outcome : Except JsError ValidationResult) (out : AnalysisResult),
      improveResult credentials result outcome = .ok out →
      ∀ h ∈ out.keyMoments, jsTrim h.timestamp ≠ "" ∧ jsTrim h.description ≠ "") := by
  have main : ∀ (result : AnalysisResult) (outcome : Except JsError ValidationResult)
      (h : Highlight), h ∈ (validateAndFixResult result outcome).keyMoments →
      jsTrim h.timestamp ≠ "" ∧ jsTrim h.description ≠ "" := by
    intro result outcome h hm
    obtain ⟨l, hl⟩ := validateAndFixResult_keyMoments_sanitized result outcome
    rw [hl] at hm
    obtain ⟨hts, htl, hds, hdl⟩ := mem_sanitizeKeyMoments hm
    rw [hts, hds]
    exact ⟨string_ne_empty_of_length_pos htl, string_ne_empty_of_length_pos hdl⟩
  refine ⟨main, ?_⟩
  intro credentials result outcome out hok h hm
  unfold improveResult at hok
  rcases hcred : ensureCredentials credentials with e | u
  · rw [hcred] at hok; cases hok
  · rw [hcred] at hok
    cases hok
    exact main result outcome h hm

/-- Witness for C1 at a concrete result, validation outcome and member. -/
theorem C1_keyMoments_invariant_witness :
    jsTrim (momentA.timestamp) ≠ "" ∧ jsTrim (momentA.description) ≠ "" := by
  have hm : momentA ∈ (validateAndFixResult sampleResult2
      (.error storageError)).keyMoments := by decide
  exact C1_keyMoments_invariant.1 sampleResult2 (.error storageError) momentA hm

/-- C5: when the background validation call fails, `validateResult` fails open
to `{isValid: true, issues: []}`, and the visible result after the improve
phase settles is exactly the preliminary result the pipeline produced (whose
`keyMoments` were already sanitized at generation time). -/
theorem C5_fail_open :
    (∀ e, validateResult (Except.error e) = { isValid := true, issues := [] }) ∧
    (∀ (credentials : Option ApiCredentials) (e : JsError)
       (answer : Option UserAnswerResult) (rawSummary : Option String)
       (rawMoments : List Highlight),
      visibleAfterImprove (preliminaryOf answer (analyzeVideoResult rawSummary rawMoments))
        (improveResult credentials (preliminaryOf answer (analyzeVideoResult rawSummary rawMoments))
          (.error e)) =
      preliminaryOf answer (analyzeVideoResult rawSummary rawMoments)) := by
  refine ⟨fun e => rfl, ?_⟩
  intro credentials e answer rawSummary rawMoments
  unfold improveResult
  rcases hcred : ensureCredentials credentials with e' | u
  · rfl
  · show validateAndFixResult (preliminaryOf answer (analyzeVideoResult rawSummary rawMoments))
        (.error e) = preliminaryOf answer (analyzeVideoResult rawSummary rawMoments)
    simp [validateAndFixResult, validateResult, preliminaryOf, analyzeVideoResult,
      sanitizeKeyMoments_idem]

/-- C2 counterexample: on the concrete issue list `[remove@0, replace@1]`
(same field `keyMoments`), the code's sort puts the `replace` *first* and the
`remove` *last*, while the spec's order puts the `remove` first — and the two
orders produce observably different results on a two-moment array. -/
theorem C2_counterexample :
    sortIssues [removeAt 0, replaceAt 1] = [replaceAt 1, removeAt 0] ∧
    sortIssuesSpec [removeAt 0, replaceAt 1] = [removeAt 0, replaceAt 1] ∧
    (applyCorrections sampleResult2 [removeAt 0, replaceAt 1]).keyMoments =
      [{ timestamp := "09:59", description := "fixed" }] ∧
    (applyCorrectionsSpec sampleResult2 [removeAt 0, replaceAt 1]).keyMoments = [momentB] ∧
    applyCorrections sampleResult2 [removeAt 0, replaceAt 1] ≠
      applyCorrectionsSpec sampleResult2 [removeAt 0, replaceAt 1] := by
  decide

/-- C2 (amended): `applyCorrections` processes the issues sorted by field name
(lexicographically); within a field all `replace`/`add` actions come *before*
the `remove` actions, and issues of the same field and same
remove-versus-other class are processed in descending index order.  The sorted
list is a permutation of the input and the corrections fold over it. -/
theorem C2_processing_order (issues : List ValidationIssue) :
    (sortIssues issues).Pairwise issueBefore ∧
    List.Perm (sortIssues issues) issues ∧
    ∀ r, applyCorrections r issues = (sortIssues issues).foldl applyIssue (deepCopy r) := by
  refine ⟨?_, List.perm_insertionSort issueLE issues, fun r => rfl⟩
  have hs := List.sorted_insertionSort issueLE issues
  exact hs.imp (fun h => (issueLE_iff _ _).mp h)

/-- C9: applying `[remove@0, remove@2]` to a result whose `keyMoments` has
exactly three elements leaves exactly the original element at index 1. -/
theorem C9_remove_two_of_three (r : AnalysisResult) (a b c : Highlight)
    (h : r.keyMoments = [a, b, c]) :
    (applyCorrections r [removeAt 0, removeAt 2]).keyMoments = [b] := by
  have hsort : sortIssues [removeAt 0, removeAt 2] = [removeAt 2, removeAt 0] := by decide
  unfold applyCorrections deepCopy
  rw [hsort]
  simp only [List.foldl_cons, List.foldl_nil]
  have h1 : applyIssue r (removeAt 2) = { r with keyMoments := [a, b] } := by
    unfold applyIssue removeAt
    simp [h]
  rw [h1]
  unfold applyIssue removeAt
  simp

/-- Witness for C9 at a concrete three-moment result. -/
theorem C9_remove_two_of_three_witness :
    (applyCorrections sampleResult3 [removeAt 0, removeAt 2]).keyMoments = [momentB] :=
  C9_remove_two_of_three sampleResult3 momentA momentB momentC rfl

/-- C10: a `keyMoments` `remove` or `replace` whose index is at least the
current length of `keyMoments` leaves the result unchanged (no exception, no
partially-initialized entry), and the input is never mutated: the corrections
fold over `deepCopy`, which is the identity on this data model. -/
theorem C10_index_safety :
    (∀ (r : AnalysisResult) (issue : ValidationIssue) (i : Int),
      issue.field = .keyMoments → issue.index = some i →
      (r.keyMoments.length : Int) ≤ i →
      (issue.correction.action = .remove ∨ issue.correction.action = .replace) →
      applyIssue r issue = r) ∧
    (∀ r, deepCopy r = r) := by
  refine ⟨?_, fun r => rfl⟩
  intro r issue i hf hi hlen hact
  obtain ⟨f, idx, it, d, act, val⟩ := issue
  simp only at hf hi hact
  subst hf
  subst hi
  have h0 : (0 : Int) ≤ i := le_trans (Int.natCast_nonneg _) hlen
  have htoNat : r.keyMoments.length ≤ i.toNat := by omega
  rcases hact with ha | ha <;> subst ha
  · unfold applyIssue
    simp [if_pos h0, List.eraseIdx_of_length_le htoNat]
  · unfold applyIssue
    simp only [if_pos h0]
    rw [if_neg (by simp)]
    rcases val with _ | v
    · rfl
    · show (if cvTruthy v = true then _ else r) = r
      by_cases hv : cvTruthy v = true
      · rw [if_pos hv, if_neg (by omega)]
      · rw [if_neg hv]

/-- Witness for C10 at a concrete out-of-range remove. -/
theorem C10_index_safety_witness :
    applyIssue sampleResult2 (removeAt 5) = sampleResult2 ∧
    deepCopy sampleResult2 = sampleResult2 :=
  ⟨C10_index_safety.1 sampleResult2 (removeAt 5) 5 rfl rfl (by decide) (Or.inl rfl),
   C10_index_safety.2 sampleResult2⟩

/-- C4: an operation whose attempts all fail with the classified timeout error
is attempted exactly `MAX_RETRY_ATTEMPTS` (3) times and then fails with that
timeout error; a first attempt failing with a non-retryable error aborts
immediately after one attempt with that error; and a second attempt only ever
happens when the first failure was classified retryable. -/
theorem C4_retry_ceiling {α : Type} (attemptOutcome : Nat → Except JsError α) :
    ((∀ k, 1 ≤ k → k ≤ MAX_RETRY_ATTEMPTS →
        ∃ e, attemptOutcome k = .error e ∧ e.isTimeoutInstance = true) →
      (withTimeoutAndRetry attemptOutcome MAX_RETRY_ATTEMPTS).2 = MAX_RETRY_ATTEMPTS ∧
      ∃ e, attemptOutcome MAX_RETRY_ATTEMPTS = .error e ∧ e.isTimeoutInstance = true ∧
        (withTimeoutAndRetry attemptOutcome MAX_RETRY_ATTEMPTS).1 = .error e) ∧
    (∀ e, attemptOutcome 1 = .error e → isRetryable e = false →
      withTimeoutAndRetry attemptOutcome MAX_RETRY_ATTEMPTS = (.error e, 1)) ∧
    (2 ≤ (withTimeoutAndRetry attemptOutcome MAX_RETRY_ATTEMPTS).2 →
      ∃ e, attemptOutcome 1 = .error e ∧ isRetryable e = true) := by
  refine ⟨?_, ?_, ?_⟩
  · intro h
    obtain ⟨e1, he1, ht1⟩ := h 1 (by decide) (by decide)
    obtain ⟨e2, he2, ht2⟩ := h 2 (by decide) (by decide)
    obtain ⟨e3, he3, ht3⟩ := h 3 (by decide) (by decide)
    have hr1 : isRetryable e1 = true := by simp [isRetryable, ht1]
    have hr2 : isRetryable e2 = true := by simp [isRetryable, ht2]
    have hrun : withTimeoutAndRetry attemptOutcome MAX_RETRY_ATTEMPTS = (.error e3, 3) := by
      unfold withTimeoutAndRetry MAX_RETRY_ATTEMPTS
      show retryGo attemptOutcome 3 1 (2 + 1) = _
      unfold retryGo
      rw [he1]
      simp only [hr1, Bool.true_and, decide_eq_true_eq, if_pos (by omega : (1 : Nat) < 3)]
      show retryGo attemptOutcome 3 2 (1 + 1) = _
      unfold retryGo
      rw [he2]
      simp only [hr2, Bool.true_and, decide_eq_true_eq, if_pos (by omega : (2 : Nat) < 3)]
      show retryGo attemptOutcome 3 3 (0 + 1) = _
      unfold retryGo
      rw [he3]
      simp
    rw [hrun]
    exact ⟨rfl, e3, he3, ht3, rfl⟩
  · intro e he hnr
    unfold withTimeoutAndRetry MAX_RETRY_ATTEMPTS
    show retryGo attemptOutcome 3 1 (2 + 1) = _
    unfold retryGo
    rw [he]
    simp [hnr]
  · intro h2
    rcases ho : attemptOutcome 1 with e | v
    · by_cases hr : isRetryable e = true
      · exact ⟨e, by simp [ho], hr⟩
      · exfalso
        have : withTimeoutAndRetry attemptOutcome MAX_RETRY_ATTEMPTS = (.error e, 1) := by
          unfold withTimeoutAndRetry MAX_RETRY_ATTEMPTS
          show retryGo attemptOutcome 3 1 (2 + 1) = _
          unfold retryGo
          rw [ho]
          simp [Bool.eq_false_iff.mpr hr]
        rw [this] at h2
        omega
    · exfalso
      have : withTimeoutAndRetry attemptOutcome MAX_RETRY_ATTEMPTS = (.ok v, 1) := by
        unfold withTimeoutAndRetry MAX_RETRY_ATTEMPTS
        show retryGo attemptOutcome 3 1 (2 + 1) = _
        unfold retryGo
        rw [ho]
      rw [this] at h2
      omega

/-- Witness for C4: an always-timing-out operation uses exactly 3 attempts,
and a non-retryable (auth-shaped) first failure aborts after 1 attempt. -/
theorem C4_retry_ceiling_witness :
    (withTimeoutAndRetry (fun _ => (Except.error timeoutSample : Except JsError Unit))
        MAX_RETRY_ATTEMPTS).2 = MAX_RETRY_ATTEMPTS ∧
    withTimeoutAndRetry (fun _ => (Except.error authSample : Except JsError Unit))
        MAX_RETRY_ATTEMPTS = (.error authSample, 1) := by
  constructor
  · exact ((C4_retry_ceiling (fun _ => .error timeoutSample)).1
      (fun k _ _ => ⟨timeoutSample, rfl, rfl⟩)).1
  · exact (C4_retry_ceiling (fun _ => .error authSample)).2.1 authSample rfl (by decide)

/-- C6: with a user question, the two calls both go through the timeout/retry
wrapper; when both succeed the merged preliminary result carries the answer in
`customAnswer` and the summary/keyMoments from the analysis call, and when
either call fails the whole operation fails — no partial preliminary result is
ever produced. -/
theorem C6_parallel_merge
    (answerAttempts : Nat → Except JsError UserAnswerResult)
    (analysisAttempts : Nat → Except JsError AnalysisCore) :
    (∀ ua ar, (withTimeoutAndRetry answerAttempts MAX_RETRY_ATTEMPTS).1 = .ok ua →
      (withTimeoutAndRetry analysisAttempts MAX_RETRY_ATTEMPTS).1 = .ok ar →
      handleSummarizeWithQuestion answerAttempts analysisAttempts =
        .ok { customAnswer := some ua, summary := ar.summary, keyMoments := ar.keyMoments }) ∧
    (((∃ e, (withTimeoutAndRetry answerAttempts MAX_RETRY_ATTEMPTS).1 = .error e) ∨
      (∃ e, (withTimeoutAndRetry analysisAttempts MAX_RETRY_ATTEMPTS).1 = .error e)) →
      ∃ e, handleSummarizeWithQuestion answerAttempts analysisAttempts = .error e) := by
  constructor
  · intro ua ar hua har
    simp [handleSummarizeWithQuestion, promiseAll2, mergeResults, hua, har]
  · rintro (⟨e, he⟩ | ⟨e, he⟩)
    · exact ⟨e, by simp [handleSummarizeWithQuestion, promiseAll2, he]⟩
    · rcases hx : (withTimeoutAndRetry answerAttempts MAX_RETRY_ATTEMPTS).1 with e2 | v
      · exact ⟨e2, by simp [handleSummarizeWithQuestion, promiseAll2, hx]⟩
      · exact ⟨e, by simp [handleSummarizeWithQuestion, promiseAll2, hx, he]⟩

/-- Witness for C6: two succeeding calls merge into one preliminary result. -/
theorem C6_parallel_merge_witness :
    handleSummarizeWithQuestion (fun _ => .ok answerSample) (fun _ => .ok coreSample) =
      .ok { customAnswer := some answerSample, summary := coreSample.summary,
            keyMoments := coreSample.keyMoments } :=
  (C6_parallel_merge (fun _ => .ok answerSample) (fun _ => .ok coreSample)).1
    answerSample coreSample rfl rfl

/-- C7 counterexample: with the database failing to open, the write operation
`saveSummary` rejects with the storage error instead of logging and
continuing; and with a failing `get` request after a successful open, the read
operation `getSummary` rejects instead of returning null. -/
theorem C7_counterexample :
    saveSummary openFailEnv "vid" sampleResult2 "https://youtu.be/vid" "en" "" 7 =
      .error storageError ∧
    getSummary getFailEnv "vid" = .error storageError :=
  ⟨rfl, rfl⟩

/-- C7 (amended): when opening the database fails, the reads degrade to a
cache miss (`getSummary` returns null, `getAllSummaries` returns `[]`); but a
request-level failure after a successful open rejects `getSummary`, and
`saveSummary` propagates an open failure as a rejection, which its call sites
catch, log and swallow. -/
theorem C7_storage_degradation :
    (∀ (env : CacheEnv) (e : JsError) (vid : String), env.openFailure = some e →
      getSummary env vid = .ok none ∧ getAllSummaries env = .ok []) ∧
    (∀ (env : CacheEnv) (e : JsError) vid r url lang q now, env.openFailure = some e →
      saveSummary env vid r url lang q now = .error e) ∧
    (∀ (env : CacheEnv) (e : JsError) vid, env.openFailure = none → env.getFailure = some e →
      getSummary env vid = .error e) ∧
    (∀ env vid r url lang q now e,
      saveSummary env vid r url lang q now = .error e →
      saveSummaryAtCallSite env vid r url lang q now = none) := by
  refine ⟨?_, ?_, ?_, ?_⟩
  · intro env e vid h
    exact ⟨by simp [getSummary, h], by simp [getAllSummaries, h]⟩
  · intro env e vid r url lang q now h
    simp [saveSummary, h]
  · intro env e vid h1 h2
    simp [getSummary, h1, h2]
  · intro env vid r url lang q now e h
    simp [saveSummaryAtCallSite, h]

/-- Witness for C7 (amended) at a concrete failing backend. -/
theorem C7_storage_degradation_witness :
    getSummary openFailEnv "vid" = .ok none ∧
    saveSummaryAtCallSite openFailEnv "vid" sampleResult2 "u" "en" "" 7 = none := by
  refine ⟨(C7_storage_degradation.1 openFailEnv storageError "vid" rfl).1, ?_⟩
  exact C7_storage_degradation.2.2.2 openFailEnv "vid" sampleResult2 "u" "en" "" 7 storageError
    (C7_storage_degradation.2.1 openFailEnv storageError "vid" sampleResult2 "u" "en" "" 7 rfl)

/-- C8: every provider operation rejects with the configuration error when the
credentials key is empty or whitespace after trimming, independently of the
(never-consulted) provider call outcome — so no request is built and no
provider is contacted. -/
theorem C8_empty_key_rejected (c : ApiCredentials) (hkey : jsTrim c.key = "") :
    (∀ o1 : Except JsError UserAnswerResult,
      answerUserQuestion (some c) o1 = .error configurationError) ∧
    (∀ o2 : Except JsError (Option String × List Highlight),
      analyzeVideo (some c) o2 = .error configurationError) ∧
    (∀ (r : AnalysisResult) (o3 : Except JsError ValidationResult),
      improveResult (some c) r o3 = .error configurationError) ∧
    (∀ o4 : Except JsError Unit,
      validateProviderCredentials (some c) o4 = .error configurationError) := by
  have hens : ensureCredentials (some c) = .error configurationError := by
    simp [ensureCredentials, hkey]
  refine ⟨fun o1 => ?_, fun o2 => ?_, fun r o3 => ?_, fun o4 => ?_⟩ <;>
    simp [answerUserQuestion, analyzeVideo, improveResult, validateProviderCredentials,
      hens, hkey]

/-- Witness for C8 at whitespace-only credentials. -/
theorem C8_empty_key_rejected_witness :
    jsTrim blankCreds.key = "" ∧
    answerUserQuestion (some blankCreds) (.ok { text := "", relatedSegments := [] }) =
      .error configurationError := by
  have hkey : jsTrim blankCreds.key = "" := by decide
  exact ⟨hkey, (C8_empty_key_rejected blankCreds hkey).1 _⟩

/-- C3 counterexample: on an input whose fenced block holds unparsable text
while the first-brace-to-last-brace substring is valid JSON, the claimed
cascade would parse the brace substring, but `parseJsonContent` raises. -/
theorem C3_counterexample :
    jsonParse fencedThenBraces = none ∧
    braceSlice fencedThenBraces = some "\x7b\"a\":1\x7d" ∧
    jsonParse "\x7b\"a\":1\x7d" = some (.obj [("a", .num "1")]) ∧
    parseJsonContent fencedThenBraces "ctx" = .error "ctx returned invalid JSON" :=
  ⟨rfl, rfl, rfl, rfl⟩

/-- C3 (amended): `parseJsonContent` first attempts a direct JSON parse; on
failure it extracts a *single* fallback candidate — the contents of a fenced
code block when present and non-empty, otherwise the first-brace-to-last-brace
substring, otherwise the trimmed raw — parses that candidate once when it
differs from the raw text, and otherwise raises a parse error naming the
context (the raw text is logged, not attached); it never returns a default. -/
theorem C3_parse_fallback :
    (∀ raw ctx v, jsonParse raw = some v → parseJsonContent raw ctx = .ok v) ∧
    (∀ raw ctx v, jsonParse raw = none → extractJsonFromText raw ≠ raw →
      jsonParse (extractJsonFromText raw) = some v → parseJsonContent raw ctx = .ok v) ∧
    (∀ raw ctx, jsonParse raw = none → jsonParse (extractJsonFromText raw) = none →
      parseJsonContent raw ctx = .error (ctx ++ " returned invalid JSON")) ∧
    (∀ raw content, fencedJson raw.data = some content → content ≠ [] →
      extractJsonFromText raw = jsTrim (String.mk content)) := by
  refine ⟨?_, ?_, ?_, ?_⟩
  · intro raw ctx v h
    simp [parseJsonContent, h]
  · intro raw ctx v h hne h2
    simp [parseJsonContent, h, hne, h2]
  · intro raw ctx h h2
    unfold parseJsonContent
    rw [h]
    by_cases hne : extractJsonFromText raw = raw
    · simp [hne]
    · simp [hne, h2]
  · intro raw content hfj hne
    simp [extractJsonFromText, hfj, hne]

/-- Witness for C3 (amended) at the three P4-style inputs. -/
theorem C3_parse_fallback_witness :
    parseJsonContent "\x7b\"a\":1\x7d" "ctx" = .ok (.obj [("a", .num "1")]) ∧
    parseJsonContent "blah \x7b\"a\":1\x7d blah" "ctx" = .ok (.obj [("a", .num "1")]) ∧
    parseJsonContent "not json at all" "ctx" = .error ("ctx" ++ " returned invalid JSON") := by
  refine ⟨C3_parse_fallback.1 _ "ctx" _ rfl, ?_, ?_⟩
  · exact C3_parse_fallback.2.1 _ "ctx" _ rfl (by decide) rfl
  · exact C3_parse_fallback.2.2.1 _ "ctx" rfl rfl
